import Mathlib

/-!
Verification of the mcx prior-predictive sampler compiler
(`mcmx/compiler/sample.py`).

The compiler takes a probabilistic-model function whose body mixes plain
statements with random-variable declarations written `x @ Dist(args)`
(a bare expression statement whose value is a binary operation with the
matrix-multiplication operator) and rewrites it into a sampler function.

We give a shallow embedding of the fragment of the Python `ast` module the
compiler manipulates, translate the compiler's functions
(`is_leaf_node`, `new_sample_expression`, `SamplerCompiler.visit_Expr`,
`SamplerCompiler.visit_FunctionDef`, `compile_to_sampler`) into Lean, and
prove the specified properties about them.
-/

/-- The binary operators of the host language. The compiler only ever
distinguishes the matrix-multiplication operator `@` (`ast.MatMult`) from
every other operator, so all others are collapsed into one constructor. -/
inductive Op where
  | MatMult
  | OtherOp
  deriving DecidableEq

/-- Expressions of the host language, mirroring the `ast` node classes the
compiler inspects or builds: `ast.Name`, `ast.Constant`, `ast.Call` (with
positional `args` and `keywords`; a keyword's name is `none` for a
double-star splat), `ast.Attribute`, `ast.BinOp` and `ast.Tuple`.
Expression contexts (`Load`/`Store`) and source locations carry no
information relevant to the rewrite and are omitted. The payload of a
constant is irrelevant to the compiler, so an integer stands for any
literal. -/
inductive Expr where
  | Name (id : String)
  | Constant (value : Int)
  | Call (func : Expr) (args : List Expr) (keywords : List (Option String × Expr))
  | Attribute (value : Expr) (attr : String)
  | BinOp (left : Expr) (op : Op) (right : Expr)
  | Tuple (elts : List Expr)

/-- Statements of a model body: `ast.Expr` (a bare expression statement),
`ast.Assign`, and a constructor standing for every other statement kind,
none of which the transformer rewrites. -/
inductive Stmt where
  | Expr (value : Expr)
  | Assign (targets : List Expr) (value : Expr)
  | Other

/-- A function definition (`ast.FunctionDef`): its name, the names of its
parameters, the default values (aligned, as in Python, to the trailing
parameters), its decorator list and its body. -/
structure FunctionDef where
  name : String
  args : List String
  defaults : List Expr
  decorator_list : List Expr
  body : List Stmt

/-- The `ValueError`s raised by `SamplerCompiler.visit_Expr`, each carrying
the offending source fragment (the code interpolates
`astor.code_gen.to_source` of that fragment into the message):
left-hand side of `@` not a name, right-hand side not a call, or a call
argument that is neither a name nor a constant (that last error also names
the variable being declared). -/
inductive CompileError where
  | lhsNotName (offending : Expr)
  | rhsNotCall (offending : Expr)
  | badArgument (varName : String) (offending : Expr)

/-- Modelled from the spec: the Name Resolver `read_object_name` lives in
`mcmx/compiler/utils.py`, which is not among the sources. Per spec 4.1 it
takes an expression that is a bare name or a chain of attribute accesses
rooted at a name and produces the reconstructed dotted-path string; other
expression shapes are a contract violation in the caller that the resolver
itself does not guard, so the catch-all branch is arbitrary. -/
def read_object_name : Expr → String
  | .Name id => id
  | .Attribute v a => read_object_name v ++ "." ++ a
  | _ => ""

/-- Function `is_leaf_node(params, model_vars)` from `sample.py`: scans the
distribution's parameters in order and returns `false` as soon as one is a
name contained in `model_vars`, `true` if the scan finishes. -/
def is_leaf_node (params : List Expr) (model_vars : List String) : Bool :=
  match params with
  | [] => true
  | p :: rest =>
    match p with
    | .Name id => if model_vars.contains id then false else is_leaf_node rest model_vars
    | _ => is_leaf_node rest model_vars

/-- Function `new_sample_expression(name, distribution, arguments,
do_add_sample_shape)` from `sample.py`: builds the assignment
`name = distribution(arguments).sample(rng_key[, sample_shape])`, the
`sample_shape` argument appearing exactly when `do_add_sample_shape` holds;
both generated calls carry empty keyword lists. -/
def new_sample_expression (name : String) (distribution : String)
    (arguments : List Expr) (do_add_sample_shape : Bool) : Stmt :=
  let args := [Expr.Name "rng_key"] ++
    (if do_add_sample_shape then [Expr.Name "sample_shape"] else [])
  Stmt.Assign [Expr.Name name]
    (Expr.Call
      (Expr.Attribute (Expr.Call (Expr.Name distribution) arguments []) "sample")
      args [])

/-- The test `isinstance(arg, ast.Name) or isinstance(arg, ast.Constant)`
applied to one call argument in `visit_Expr`'s validation loop. -/
def isNameOrConstant : Expr → Bool
  | .Name _ => true
  | .Constant _ => true
  | _ => false

/-- The validation loop over a declaration's call arguments: Python raises
on the first argument that is neither a name nor a constant, so this
returns the first such argument when one exists. -/
def findBadArg : List Expr → Option Expr
  | [] => none
  | a :: rest => if isNameOrConstant a then findBadArg rest else some a

/-- Method `SamplerCompiler.visit_Expr` from `sample.py`, with the transformer's
mutable `self.model_vars` threaded explicitly. A bare expression statement
whose value is a `BinOp` with the `MatMult` operator is a random-variable
declaration: the left operand must be a name (which is appended to
`model_vars` before anything else), the right operand must be a call, every
positional call argument must be a name or a constant, and the statement is
replaced by the synthesized sampling assignment, whose `sample_shape`
argument is governed by `is_leaf_node` applied to the `model_vars` list as
already extended with the declared name (matching the order of lines 88 and
117 of the source). Any other statement is returned unchanged. Raising
`ValueError` is modelled by `Except.error`. -/
def visit_Expr (model_vars : List String) (node : Stmt) :
    Except CompileError (Stmt × List String) :=
  match node with
  | .Expr (.BinOp left .MatMult right) =>
    match left with
    | .Name var_name =>
      let model_vars := model_vars ++ [var_name]
      match right with
      | .Call f args _kws =>
        let distribution := read_object_name f
        match findBadArg args with
        | some bad => .error (.badArgument var_name bad)
        | none =>
          let do_add_sample_shape := is_leaf_node args model_vars
          .ok (new_sample_expression var_name distribution args do_add_sample_shape,
               model_vars)
      | r => .error (.rhsNotCall r)
    | l => .error (.lhsNotName l)
  | _ => .ok (node, model_vars)

/-- The transformer's `generic_visit` over a function body: each statement
is passed through `visit_Expr` in order, threading `model_vars`; the first
raised error aborts the whole traversal, so no partially rewritten body is
ever produced. -/
def visit_body (model_vars : List String) :
    List Stmt → Except CompileError (List Stmt × List String)
  | [] => .ok ([], model_vars)
  | s :: rest =>
    match visit_Expr model_vars s with
    | .error e => .error e
    | .ok (s', mv') =>
      match visit_body mv' rest with
      | .error e => .error e
      | .ok (rest', mv'') => .ok (s' :: rest', mv'')

/-- Method `SamplerCompiler.visit_FunctionDef` from `sample.py`: inserts the
`rng_key` parameter at position 0, appends the `sample_shape` parameter
with an appended default of an empty tuple (Python default values align to
the trailing parameters, so `rng_key` gains no default), clears the
decorator list, renames the function with the `_sampler` suffix, records
that name (returned here as the second component, modelling
`self.fn_name`), and only then visits the body with an initially empty
`model_vars` list. -/
def visit_FunctionDef (node : FunctionDef) :
    Except CompileError (FunctionDef × String) :=
  let args' := "rng_key" :: node.args ++ ["sample_shape"]
  let defaults' := node.defaults ++ [Expr.Tuple []]
  let fn_name := node.name ++ "_sampler"
  match visit_body [] node.body with
  | .error e => .error e
  | .ok (body', _) =>
    .ok ({ name := fn_name, args := args', defaults := defaults',
           decorator_list := [], body := body' }, fn_name)

/-- Function `compile_to_sampler(model, namespace)` from `sample.py`: rewrite the
parsed tree, execute the recompiled code in the given namespace (modelled
as an association list with most recent bindings in front, so executing the
module prepends the binding of the rewritten function under its new name),
and look the sampler up in that namespace under the recorded
`compiler.fn_name`. The lookup result is an `Option` because Python
indexing would fail if the name were absent. The final `jax.jit` wrapping
is an external collaborator required to preserve the callable's contract,
so the artifact is modelled as the retrieved function definition itself. -/
def compile_to_sampler (model : FunctionDef)
    (ns : List (String × FunctionDef)) :
    Except CompileError (Option FunctionDef) :=
  match visit_FunctionDef model with
  | .error e => .error e
  | .ok (tree, fn_name) => .ok (((fn_name, tree) :: ns).lookup fn_name)

/-!
Specification-side definitions: predicates and projections used to state
the properties, and concrete model fragments used as witnesses and
counterexamples.
-/

/-- A statement matches the rewrite trigger pattern: a bare expression
statement whose value is a binary operation with the matrix-multiplication
operator. -/
def isDeclTrigger : Stmt → Bool
  | .Expr (.BinOp _ .MatMult _) => true
  | _ => false

/-- A statement violates the declaration grammar: it matches the trigger
pattern but its left operand is not a name, or its right operand is not a
call, or some positional call argument is neither a name nor a constant. -/
def violatesGrammar : Stmt → Bool
  | .Expr (.BinOp l .MatMult r) =>
    match l with
    | .Name _ =>
      match r with
      | .Call _ args _ => (findBadArg args).isSome
      | _ => true
    | _ => true
  | _ => false

/-- The error `e` carries precisely the offending fragment of the trigger
statement `s`: the whole left operand when that operand is not a name, the
whole right operand when it is not a call, or an offending argument of the
call otherwise. -/
def offendingFragmentIn (e : CompileError) (s : Stmt) : Prop :=
  match s with
  | .Expr (.BinOp l .MatMult r) =>
    match e with
    | .lhsNotName x => x = l
    | .rhsNotCall x => x = r
    | .badArgument _ x =>
      match r with
      | .Call _ args _ => x ∈ args ∧ isNameOrConstant x = false
      | _ => False
  | _ => False

/-- The left-hand names of the trigger statements of a body, in body
order; targets of plain assignments and all other statements contribute
nothing. -/
def declNames : List Stmt → List String
  | [] => []
  | .Expr (.BinOp (.Name x) .MatMult _) :: rest => x :: declNames rest
  | _ :: rest => declNames rest

/-- The contribution of a single statement to `declNames`. -/
def declNamesOne : Stmt → List String
  | .Expr (.BinOp (.Name x) .MatMult _) => [x]
  | _ => []

/-- The number of arguments passed to the outer (`.sample`) call of a
synthesized assignment; `0` on any other statement shape. -/
def drawArgCount : Stmt → Nat
  | .Assign _ (.Call _ args _) => args.length
  | _ => 0

/-- The keyword list of the distribution-instantiation call inside a
synthesized assignment, when the statement has that shape. -/
def distCallKeywords : Stmt → Option (List (Option String × Expr))
  | .Assign _ (.Call (.Attribute (.Call _ _ kws) _) _ _) => some kws
  | _ => none

/-- The declaration `a @ Normal(0, 1)`. -/
def declA : Stmt :=
  Stmt.Expr (Expr.BinOp (Expr.Name "a") Op.MatMult
    (Expr.Call (Expr.Name "Normal") [Expr.Constant 0, Expr.Constant 1] []))

/-- The declaration `b @ Normal(a, 1)`. -/
def declB : Stmt :=
  Stmt.Expr (Expr.BinOp (Expr.Name "b") Op.MatMult
    (Expr.Call (Expr.Name "Normal") [Expr.Name "a", Expr.Constant 1] []))

/-- The self-referencing declaration `x @ Normal(x, 1)`. -/
def selfRefDecl : Stmt :=
  Stmt.Expr (Expr.BinOp (Expr.Name "x") Op.MatMult
    (Expr.Call (Expr.Name "Normal") [Expr.Name "x", Expr.Constant 1] []))

/-- The ill-formed declaration `x @ 5` (right-hand side not a call). -/
def declRhsNotCall : Stmt :=
  Stmt.Expr (Expr.BinOp (Expr.Name "x") Op.MatMult (Expr.Constant 5))

/-- The two-declaration model
`def m(): a @ Normal(0, 1); b @ Normal(a, 1)`, carrying one decorator. -/
def modelM : FunctionDef :=
  FunctionDef.mk "m" [] [] [Expr.Name "model"] [declA, declB]

/-! Helper lemmas shared by the claim theorems. -/

theorem aux_is_leaf_cons_name (id : String) (rest : List Expr) (mv : List String) :
    is_leaf_node (Expr.Name id :: rest) mv =
      if mv.contains id = true then false else is_leaf_node rest mv := rfl

theorem aux_is_leaf_iff (params : List Expr) (mv : List String) :
    is_leaf_node params mv = true ↔
      ∀ id, Expr.Name id ∈ params → id ∉ mv := by
  induction params with
  | nil => simp [is_leaf_node]
  | cons p rest ih =>
    cases p
    case Name id =>
      by_cases h : id ∈ mv
      · have hc : mv.contains id = true := by simpa using h
        rw [aux_is_leaf_cons_name, if_pos hc]
        simp only [Bool.false_eq_true, false_iff]
        intro hall
        exact hall id (List.mem_cons_self _ _) h
      · have hc : ¬ (mv.contains id = true) := by simpa using h
        rw [aux_is_leaf_cons_name, if_neg hc, ih]
        constructor
        · intro hr id' h'
          rcases List.mem_cons.mp h' with heq | hmem
          · injection heq with hh
            subst hh
            exact h
          · exact hr id' hmem
        · intro hall id' hmem
          exact hall id' (List.mem_cons_of_mem _ hmem)
    all_goals {
      show is_leaf_node rest mv = true ↔ _
      rw [ih]
      constructor
      · intro hr id' h'
        rcases List.mem_cons.mp h' with heq | hmem
        · exact Expr.noConfusion heq
        · exact hr id' hmem
      · intro hall id' hmem
        exact hall id' (List.mem_cons_of_mem _ hmem) }

theorem aux_findBadArg_none (args : List Expr) :
    findBadArg args = none ↔ ∀ a ∈ args, isNameOrConstant a = true := by
  induction args with
  | nil => simp [findBadArg]
  | cons a rest ih =>
    by_cases h : isNameOrConstant a = true
    · simp [findBadArg, h, ih]
    · simp [findBadArg, h]

theorem aux_findBadArg_some (args : List Expr) (x : Expr)
    (h : findBadArg args = some x) : x ∈ args ∧ isNameOrConstant x = false := by
  induction args with
  | nil => simp [findBadArg] at h
  | cons a rest ih =>
    by_cases ha : isNameOrConstant a = true
    · simp only [findBadArg, if_pos ha] at h
      rcases ih h with ⟨h1, h2⟩
      exact ⟨List.mem_cons_of_mem _ h1, h2⟩
    · simp only [findBadArg, if_neg ha] at h
      cases h
      exact ⟨List.mem_cons_self _ _, by simpa using ha⟩

theorem aux_visit_Expr_not_trigger (mv : List String) (s : Stmt)
    (h : isDeclTrigger s = false) : visit_Expr mv s = .ok (s, mv) := by
  cases s
  case Expr v =>
    cases v
    case BinOp l op r =>
      cases op
      case MatMult => simp [isDeclTrigger] at h
      case OtherOp => rfl
    all_goals rfl
  all_goals rfl

theorem aux_visit_Expr_decl_ok (mv : List String) (x : String) (f : Expr)
    (args : List Expr) (kws : List (Option String × Expr))
    (h : findBadArg args = none) :
    visit_Expr mv (Stmt.Expr (Expr.BinOp (Expr.Name x) Op.MatMult
        (Expr.Call f args kws))) =
      Except.ok (new_sample_expression x (read_object_name f) args
        (is_leaf_node args (mv ++ [x])), mv ++ [x]) := by
  simp [visit_Expr, h]

theorem aux_visit_Expr_error_iff (mv : List String) (s : Stmt) :
    (∃ e, visit_Expr mv s = .error e) ↔ violatesGrammar s = true := by
  cases s
  case Expr v =>
    cases v
    case BinOp l op r =>
      cases op
      case OtherOp => simp [visit_Expr, violatesGrammar]
      case MatMult =>
        cases l
        case Name x =>
          cases r
          case Call f args kws =>
            cases hb : findBadArg args with
            | none => simp [visit_Expr, violatesGrammar, hb]
            | some bad => simp [visit_Expr, violatesGrammar, hb]
          all_goals simp [visit_Expr, violatesGrammar]
        all_goals simp [visit_Expr, violatesGrammar]
    all_goals simp [visit_Expr, violatesGrammar]
  all_goals simp [visit_Expr, violatesGrammar]

theorem aux_visit_Expr_error_frag (mv : List String) (s : Stmt) (e : CompileError)
    (h : visit_Expr mv s = .error e) :
    violatesGrammar s = true ∧ offendingFragmentIn e s := by
  cases s
  case Expr v =>
    cases v
    case BinOp l op r =>
      cases op
      case OtherOp => simp [visit_Expr] at h
      case MatMult =>
        cases l
        case Name x =>
          cases r
          case Call f args kws =>
            cases hb : findBadArg args with
            | none => simp [visit_Expr, hb] at h
            | some bad =>
              simp [visit_Expr, hb] at h
              subst h
              refine ⟨by simp [violatesGrammar, hb], ?_⟩
              exact aux_findBadArg_some args bad hb
          all_goals {
            simp [visit_Expr] at h
            subst h
            simp [violatesGrammar, offendingFragmentIn] }
        all_goals {
          simp [visit_Expr] at h
          subst h
          simp [violatesGrammar, offendingFragmentIn] }
    all_goals simp [visit_Expr] at h
  all_goals simp [visit_Expr] at h

theorem aux_declNames_cons (s : Stmt) (rest : List Stmt) :
    declNames (s :: rest) = declNamesOne s ++ declNames rest := by
  cases s
  case Expr v =>
    cases v
    case BinOp l op r =>
      cases op
      case MatMult =>
        cases l
        all_goals rfl
      case OtherOp =>
        cases l
        all_goals rfl
    all_goals rfl
  all_goals rfl

theorem aux_visit_Expr_ok_registry (mv : List String) (s s' : Stmt) (mv' : List String)
    (h : visit_Expr mv s = .ok (s', mv')) : mv' = mv ++ declNamesOne s := by
  cases s
  case Expr v =>
    cases v
    case BinOp l op r =>
      cases op
      case OtherOp =>
        simp [visit_Expr] at h
        simp [declNamesOne, h.2.symm]
      case MatMult =>
        cases l
        case Name x =>
          cases r
          case Call f args kws =>
            cases hb : findBadArg args with
            | none =>
              simp [visit_Expr, hb] at h
              simp [declNamesOne, h.2.symm]
            | some bad => simp [visit_Expr, hb] at h
          all_goals simp [visit_Expr] at h
        all_goals simp [visit_Expr] at h
    all_goals {
      simp [visit_Expr] at h
      simp [declNamesOne, h.2.symm] }
  all_goals {
    simp [visit_Expr] at h
    simp [declNamesOne, h.2.symm] }

theorem aux_visit_body_ok (stmts : List Stmt) (mv : List String)
    (stmts' : List Stmt) (mv' : List String)
    (h : visit_body mv stmts = .ok (stmts', mv')) :
    mv' = mv ++ declNames stmts ∧ stmts'.length = stmts.length ∧
      List.Forall₂ (fun s t => isDeclTrigger s = false → t = s) stmts stmts' := by
  induction stmts generalizing mv stmts' mv' with
  | nil =>
    simp [visit_body] at h
    simp [h.1.symm, h.2.symm, declNames]
  | cons s rest ih =>
    cases hv : visit_Expr mv s with
    | error e => simp [visit_body, hv] at h
    | ok p =>
      obtain ⟨s1, mv1⟩ := p
      cases hb : visit_body mv1 rest with
      | error e => simp [visit_body, hv, hb] at h
      | ok q =>
        obtain ⟨rest1, mv2⟩ := q
        simp [visit_body, hv, hb] at h
        obtain ⟨hs, hmv⟩ := h
        obtain ⟨ihr, ihl, ihf⟩ := ih mv1 rest1 mv2 hb
        refine ⟨?_, ?_, ?_⟩
        · rw [hmv.symm, ihr, aux_visit_Expr_ok_registry mv s s1 mv1 hv,
              aux_declNames_cons, List.append_assoc]
        · rw [hs.symm]
          simp [ihl]
        · rw [hs.symm]
          refine List.Forall₂.cons ?_ ihf
          intro hnt
          have := aux_visit_Expr_not_trigger mv s hnt
          rw [this] at hv
          exact (Prod.mk.injEq .. ▸ (Except.ok.injEq .. ▸ hv)).1.symm

theorem aux_visit_Expr_ok_of_ok (mv : List String) (s : Stmt)
    (h : violatesGrammar s = false) : ∃ p, visit_Expr mv s = .ok p := by
  cases hv : visit_Expr mv s with
  | ok p => exact ⟨p, rfl⟩
  | error e =>
    have := (aux_visit_Expr_error_iff mv s).mp ⟨e, hv⟩
    rw [h] at this
    exact Bool.noConfusion this

theorem aux_visit_body_error_iff (stmts : List Stmt) (mv : List String) :
    (∃ e, visit_body mv stmts = .error e) ↔
      ∃ s ∈ stmts, violatesGrammar s = true := by
  induction stmts generalizing mv with
  | nil => simp [visit_body]
  | cons s rest ih =>
    cases hg : violatesGrammar s with
    | true =>
      obtain ⟨e, he⟩ := (aux_visit_Expr_error_iff mv s).mpr hg
      simp [visit_body, he]
      exact Or.inl hg
    | false =>
      obtain ⟨⟨s1, mv1⟩, hv⟩ := aux_visit_Expr_ok_of_ok mv s hg
      cases hb : visit_body mv1 rest with
      | error e =>
        simp [visit_body, hv, hb]
        exact Or.inr ((ih mv1).mp ⟨e, hb⟩)
      | ok q =>
        simp [visit_body, hv, hb]
        refine ⟨hg, ?_⟩
        intro x hx
        by_contra hvx
        rw [Bool.not_eq_false] at hvx
        obtain ⟨e, he⟩ := (ih mv1).mpr ⟨x, hx, hvx⟩
        rw [he] at hb
        exact Except.noConfusion hb

theorem aux_visit_body_abort (pre : List Stmt) (s : Stmt) (post post' : List Stmt)
    (mv : List String) (h : violatesGrammar s = true) :
    visit_body mv (pre ++ s :: post) = visit_body mv (pre ++ s :: post') := by
  induction pre generalizing mv with
  | nil =>
    obtain ⟨e, he⟩ := (aux_visit_Expr_error_iff mv s).mpr h
    simp [visit_body, he]
  | cons p pre ih =>
    cases hv : visit_Expr mv p with
    | error e => simp [visit_body, hv]
    | ok q =>
      obtain ⟨p1, mv1⟩ := q
      simp [visit_body, hv]
      rw [ih mv1]

theorem aux_visit_body_error_frag (stmts : List Stmt) (mv : List String)
    (e : CompileError) (h : visit_body mv stmts = .error e) :
    ∃ s ∈ stmts, violatesGrammar s = true ∧ offendingFragmentIn e s := by
  induction stmts generalizing mv with
  | nil => simp [visit_body] at h
  | cons s rest ih =>
    cases hv : visit_Expr mv s with
    | error e' =>
      simp [visit_body, hv] at h
      subst h
      exact ⟨s, List.mem_cons_self _ _, aux_visit_Expr_error_frag mv s e' hv⟩
    | ok q =>
      obtain ⟨s1, mv1⟩ := q
      cases hb : visit_body mv1 rest with
      | error e' =>
        simp [visit_body, hv, hb] at h
        subst h
        obtain ⟨s', hmem, hfrag⟩ := ih mv1 hb
        exact ⟨s', List.mem_cons_of_mem _ hmem, hfrag⟩
      | ok q' => simp [visit_body, hv, hb] at h

theorem aux_visit_FunctionDef_ok (f f' : FunctionDef) (n : String)
    (h : visit_FunctionDef f = .ok (f', n)) :
    ∃ body' mvfin, visit_body [] f.body = .ok (body', mvfin) ∧
      f' = FunctionDef.mk (f.name ++ "_sampler")
        ("rng_key" :: f.args ++ ["sample_shape"])
        (f.defaults ++ [Expr.Tuple []]) [] body' ∧
      n = f.name ++ "_sampler" := by
  cases hb : visit_body [] f.body with
  | error e => simp [visit_FunctionDef, hb] at h
  | ok q =>
    obtain ⟨body', mvfin⟩ := q
    simp [visit_FunctionDef, hb] at h
    exact ⟨body', mvfin, rfl, h.1.symm, h.2.symm⟩

theorem aux_visit_Expr_decl_err (mv : List String) (x : String) (f : Expr)
    (args : List Expr) (kws : List (Option String × Expr)) (bad : Expr)
    (h : findBadArg args = some bad) :
    visit_Expr mv (Stmt.Expr (Expr.BinOp (Expr.Name x) Op.MatMult
        (Expr.Call f args kws))) =
      Except.error (CompileError.badArgument x bad) := by
  simp [visit_Expr, h]

/-- The plain assignment `u = 3`. -/
def assignU : Stmt := Stmt.Assign [Expr.Name "u"] (Expr.Constant 3)

/-- The rewritten form of `modelM`. -/
def samplerM : FunctionDef :=
  FunctionDef.mk "m_sampler" ["rng_key", "sample_shape"] [Expr.Tuple []] []
    [new_sample_expression "a" "Normal" [Expr.Constant 0, Expr.Constant 1] true,
     new_sample_expression "b" "Normal" [Expr.Name "a", Expr.Constant 1] false]

/-- C1: the dependency classifier `is_leaf_node` returns `true` iff none of
the declaration's argument expressions is a plain name reference matching an
entry already in the declared-variable registry; a constant or any other
non-name argument never triggers non-leaf classification. -/
theorem C1_leaf_classification (params : List Expr) (model_vars : List String) :
    is_leaf_node params model_vars = true ↔
      ∀ id, Expr.Name id ∈ params → id ∉ model_vars :=
  aux_is_leaf_iff params model_vars

/-- C2 counterexample: on the self-referencing declaration `x @ Normal(x, 1)`
with an empty registry, the rewriter does not produce the statement the claim
predicts (classification against the registry as it was before the target
name `x` was added, which would be leaf): it classifies against the registry
with `x` already appended and omits the `sample_shape` argument. -/
theorem C2_counterexample :
    ¬ (visit_Expr [] selfRefDecl =
        Except.ok (new_sample_expression "x" "Normal"
          [Expr.Name "x", Expr.Constant 1]
          (is_leaf_node [Expr.Name "x", Expr.Constant 1] []), ["x"])) := by
  intro h
  have h2 := congrArg
    (fun r => match r with
      | Except.ok (s, _) => drawArgCount s
      | Except.error _ => 0) h
  simp [selfRefDecl, visit_Expr, new_sample_expression, is_leaf_node,
    findBadArg, isNameOrConstant, read_object_name, drawArgCount] at h2

/-- C2 (amended): the leaf/non-leaf classification of a declaration is
computed against the registry state after the declaration's own target name
has been appended (the append on source line 88 precedes the classification
on line 117), so a declaration whose arguments reference the variable being
declared itself is classified non-leaf. -/
theorem C2_amended_classification (mv : List String) (x : String) (f : Expr)
    (args : List Expr) (kws : List (Option String × Expr))
    (h : findBadArg args = none) :
    visit_Expr mv (Stmt.Expr (Expr.BinOp (Expr.Name x) Op.MatMult
        (Expr.Call f args kws))) =
      Except.ok (new_sample_expression x (read_object_name f) args
        (is_leaf_node args (mv ++ [x])), mv ++ [x]) :=
  aux_visit_Expr_decl_ok mv x f args kws h

/-- Witness for C2 (amended): the self-referencing declaration
`x @ Normal(x, 1)` is rewritten with the leaf flag computed on the registry
`["x"]`, hence without the `sample_shape` argument. -/
theorem C2_amended_witness :
    visit_Expr [] selfRefDecl =
      Except.ok (new_sample_expression "x" "Normal"
        [Expr.Name "x", Expr.Constant 1] false, ["x"]) :=
  C2_amended_classification [] "x" (Expr.Name "Normal")
    [Expr.Name "x", Expr.Constant 1] [] rfl

/-- C3: the body rewrite raises an error iff the body contains a declaration
whose left-hand side is not a simple name, or whose right-hand side is not a
call, or whose call arguments are not restricted to names and constants;
every raised error carries the offending fragment of some violating
statement, and as soon as a violating statement is reached the result is
fixed — the statements after it are never examined, and in the error case no
rewritten body is produced at all. -/
theorem C3_grammar_violation (mv : List String) (stmts : List Stmt) :
    ((∃ e, visit_body mv stmts = Except.error e) ↔
        ∃ s ∈ stmts, violatesGrammar s = true) ∧
      (∀ e, visit_body mv stmts = Except.error e →
        ∃ s ∈ stmts, violatesGrammar s = true ∧ offendingFragmentIn e s) ∧
      (∀ pre s post, stmts = pre ++ s :: post → violatesGrammar s = true →
        visit_body mv stmts = visit_body mv (pre ++ [s])) := by
  refine ⟨aux_visit_body_error_iff stmts mv, ?_, ?_⟩
  · intro e he
    exact aux_visit_body_error_frag stmts mv e he
  · intro pre s post hsplit hv
    rw [hsplit]
    exact aux_visit_body_abort pre s post [] mv hv

/-- Witness for C3: the body `a @ Normal(0, 1); x @ 5; b @ Normal(a, 1)`
contains the violating statement `x @ 5`, so its rewrite raises an error. -/
theorem C3_witness :
    ∃ e, visit_body [] [declA, declRhsNotCall, declB] = Except.error e :=
  (C3_grammar_violation [] [declA, declRhsNotCall, declB]).1.mpr
    ⟨declRhsNotCall, List.mem_cons_of_mem _ (List.mem_cons_self _ _), rfl⟩

/-- C4: the sample-statement synthesizer produces exactly the assignment
binding the variable to the named distribution instantiated with the
original argument expressions, followed by a `.sample` call whose first
argument is the randomness source and which receives the `sample_shape`
argument iff the leaf flag is set. -/
theorem C4_synthesized_statement (name distribution : String)
    (arguments : List Expr) (leaf : Bool) :
    new_sample_expression name distribution arguments leaf =
      Stmt.Assign [Expr.Name name]
        (Expr.Call
          (Expr.Attribute (Expr.Call (Expr.Name distribution) arguments [])
            "sample")
          (if leaf then [Expr.Name "rng_key", Expr.Name "sample_shape"]
            else [Expr.Name "rng_key"]) []) := by
  cases leaf <;> rfl

/-- C5: a successfully rewritten function gains exactly two parameters:
`rng_key` inserted at position 0 and `sample_shape` appended at the end, the
latter with an appended default of an empty tuple (so `rng_key` has no
default, Python defaults being right-aligned); the original parameters are
kept in between in their original order. -/
theorem C5_signature (f f' : FunctionDef) (n : String)
    (h : visit_FunctionDef f = Except.ok (f', n)) :
    f'.args = "rng_key" :: f.args ++ ["sample_shape"] ∧
      f'.defaults = f.defaults ++ [Expr.Tuple []] ∧
      f'.args.length = f.args.length + 2 := by
  obtain ⟨body', mvfin, hb, hf, hn⟩ := aux_visit_FunctionDef_ok f f' n h
  subst hf
  refine ⟨rfl, rfl, by simp⟩

/-- Witness for C5: the two-declaration model `m` compiles, and its sampler
has parameters `rng_key, sample_shape` with the single appended default. -/
theorem C5_witness :
    samplerM.args = "rng_key" :: modelM.args ++ ["sample_shape"] ∧
      samplerM.defaults = modelM.defaults ++ [Expr.Tuple []] ∧
      samplerM.args.length = modelM.args.length + 2 :=
  C5_signature modelM samplerM "m_sampler" rfl

/-- C6: on a body whose rewrite succeeds, the rewriter replaces statements
one-for-one: the rewritten body has the same number of statements as the
original, and every statement not matching the trigger pattern (bare
expression with the matrix-multiplication operator) is left unchanged at its
original position. -/
theorem C6_one_for_one (mv : List String) (stmts stmts' : List Stmt)
    (mv' : List String)
    (h : visit_body mv stmts = Except.ok (stmts', mv')) :
    stmts'.length = stmts.length ∧
      List.Forall₂ (fun s t => isDeclTrigger s = false → t = s) stmts stmts' := by
  obtain ⟨_, hl, hf⟩ := aux_visit_body_ok stmts mv stmts' mv' h
  exact ⟨hl, hf⟩

/-- Witness for C6: the body `a @ Normal(0, 1); u = 3; b @ Normal(a, 1)` is
rewritten one-for-one, the plain assignment `u = 3` surviving unchanged in
second position. -/
theorem C6_witness :
    ([new_sample_expression "a" "Normal" [Expr.Constant 0, Expr.Constant 1] true,
        assignU,
        new_sample_expression "b" "Normal" [Expr.Name "a", Expr.Constant 1] false
       ].length = [declA, assignU, declB].length) ∧
      List.Forall₂ (fun s t => isDeclTrigger s = false → t = s)
        [declA, assignU, declB]
        [new_sample_expression "a" "Normal" [Expr.Constant 0, Expr.Constant 1] true,
         assignU,
         new_sample_expression "b" "Normal" [Expr.Name "a", Expr.Constant 1] false] :=
  C6_one_for_one [] [declA, assignU, declB]
    [new_sample_expression "a" "Normal" [Expr.Constant 0, Expr.Constant 1] true,
     assignU,
     new_sample_expression "b" "Normal" [Expr.Name "a", Expr.Constant 1] false]
    ["a", "b"] rfl

/-- C7: a successfully rewritten function has its decorator list cleared and
its name suffixed with `_sampler`; that name is the one the compiler
records, and the driver retrieves exactly the rewritten function from the
execution namespace under it, whatever the namespace previously contained. -/
theorem C7_rename_record_retrieve (f f' : FunctionDef) (n : String)
    (h : visit_FunctionDef f = Except.ok (f', n)) :
    f'.decorator_list = [] ∧ f'.name = f.name ++ "_sampler" ∧ n = f'.name ∧
      ∀ ns, compile_to_sampler f ns = Except.ok (some f') := by
  obtain ⟨body', mvfin, hb, hf, hn⟩ := aux_visit_FunctionDef_ok f f' n h
  subst hf
  subst hn
  refine ⟨rfl, rfl, rfl, ?_⟩
  intro ns
  simp [compile_to_sampler, h, List.lookup]

/-- Witness for C7: compiling the decorated model `m` yields `m_sampler`
with no decorators, retrievable from any namespace. -/
theorem C7_witness :
    samplerM.decorator_list = [] ∧ samplerM.name = modelM.name ++ "_sampler" ∧
      "m_sampler" = samplerM.name ∧
      ∀ ns, compile_to_sampler modelM ns = Except.ok (some samplerM) :=
  C7_rename_record_retrieve modelM samplerM "m_sampler" rfl

/-- C8: compilation is deterministic — rewriting the same model definition
with two different (fresh) namespaces performs the identical source-to-source
transformation and returns the identical sampler artifact, so the two
samplers' outputs on equal inputs coincide. -/
theorem C8_deterministic (f : FunctionDef)
    (ns1 ns2 : List (String × FunctionDef)) :
    compile_to_sampler f ns1 = compile_to_sampler f ns2 := by
  cases h : visit_FunctionDef f with
  | error e => simp [compile_to_sampler, h]
  | ok p =>
    obtain ⟨tree, n⟩ := p
    simp [compile_to_sampler, h, List.lookup]

/-- C9: keyword arguments of a declaration's distribution call are invisible
to the rewrite — grammar validation inspects only the positional arguments,
so the result is the same whatever the keyword list is (keywords never cause
rejection) — and the synthesized statement instantiates the distribution
with an empty keyword list, so any keyword arguments are silently dropped. -/
theorem C9_keywords_ignored_and_dropped (mv : List String) (x : String)
    (f : Expr) (args : List Expr)
    (kws kws' : List (Option String × Expr)) :
    visit_Expr mv (Stmt.Expr (Expr.BinOp (Expr.Name x) Op.MatMult
        (Expr.Call f args kws))) =
      visit_Expr mv (Stmt.Expr (Expr.BinOp (Expr.Name x) Op.MatMult
        (Expr.Call f args kws'))) ∧
      (findBadArg args = none →
        visit_Expr mv (Stmt.Expr (Expr.BinOp (Expr.Name x) Op.MatMult
            (Expr.Call f args kws))) =
          Except.ok (new_sample_expression x (read_object_name f) args
            (is_leaf_node args (mv ++ [x])), mv ++ [x]) ∧
        distCallKeywords (new_sample_expression x (read_object_name f) args
          (is_leaf_node args (mv ++ [x]))) = some []) := by
  constructor
  · cases hb : findBadArg args with
    | none =>
      rw [aux_visit_Expr_decl_ok mv x f args kws hb,
        aux_visit_Expr_decl_ok mv x f args kws' hb]
    | some bad =>
      rw [aux_visit_Expr_decl_err mv x f args kws bad hb,
        aux_visit_Expr_decl_err mv x f args kws' bad hb]
  · intro h
    exact ⟨aux_visit_Expr_decl_ok mv x f args kws h, rfl⟩

/-- Witness for C9: the declaration `x @ Beta(0, observed=1)` compiles to the
same statement as `x @ Beta(0)`, with an empty keyword list on the generated
distribution call. -/
theorem C9_witness :
    visit_Expr [] (Stmt.Expr (Expr.BinOp (Expr.Name "x") Op.MatMult
        (Expr.Call (Expr.Name "Beta") [Expr.Constant 0]
          [(some "observed", Expr.Constant 1)]))) =
      Except.ok (new_sample_expression "x" "Beta" [Expr.Constant 0]
        (is_leaf_node [Expr.Constant 0] ["x"]), ["x"]) ∧
      distCallKeywords (new_sample_expression "x" "Beta" [Expr.Constant 0]
        (is_leaf_node [Expr.Constant 0] ["x"])) = some [] :=
  (C9_keywords_ignored_and_dropped [] "x" (Expr.Name "Beta") [Expr.Constant 0]
    [(some "observed", Expr.Constant 1)] []).2 rfl

/-- C10: on a successful rewrite the registry accumulated by the traversal
is exactly the initial registry followed by the left-hand names of the
trigger statements, in body order — plain-assignment targets are never
added — so a later declaration whose arguments reference only names outside
the registry (for instance only plainly-assigned names) is classified leaf
and its sampling statement receives the `sample_shape` argument. -/
theorem C10_registry (mv : List String) (stmts stmts' : List Stmt)
    (mv' : List String)
    (h : visit_body mv stmts = Except.ok (stmts', mv')) :
    mv' = mv ++ declNames stmts ∧
      ∀ x f args kws,
        (∀ id, Expr.Name id ∈ args → id ∉ mv' ∧ id ≠ x) →
        findBadArg args = none →
        visit_Expr mv' (Stmt.Expr (Expr.BinOp (Expr.Name x) Op.MatMult
            (Expr.Call f args kws))) =
          Except.ok (new_sample_expression x (read_object_name f) args true,
            mv' ++ [x]) := by
  obtain ⟨hr, _, _⟩ := aux_visit_body_ok stmts mv stmts' mv' h
  refine ⟨hr, ?_⟩
  intro x f args kws hfresh hargs
  have hleaf : is_leaf_node args (mv' ++ [x]) = true := by
    rw [aux_is_leaf_iff]
    intro id hid hmem
    rcases List.mem_append.mp hmem with hmem' | hmem'
    · exact (hfresh id hid).1 hmem'
    · exact (hfresh id hid).2 (List.mem_singleton.mp hmem')
  have hok := aux_visit_Expr_decl_ok mv' x f args kws hargs
  rw [hleaf] at hok
  exact hok

/-- Witness for C10: after the body `u = 3` (a plain assignment) the registry
is still empty, and the later declaration `v @ Normal(u, 1)` referencing only
the plainly-assigned `u` is classified leaf, receiving `sample_shape`. -/
theorem C10_witness :
    visit_Expr [] (Stmt.Expr (Expr.BinOp (Expr.Name "v") Op.MatMult
        (Expr.Call (Expr.Name "Normal") [Expr.Name "u", Expr.Constant 1] []))) =
      Except.ok (new_sample_expression "v" "Normal"
        [Expr.Name "u", Expr.Constant 1] true, ["v"]) := by
  have hfresh : ∀ id, Expr.Name id ∈ [Expr.Name "u", Expr.Constant 1] →
      id ∉ ([] : List String) ∧ id ≠ "v" := by
    intro id hid
    rcases List.mem_cons.mp hid with heq | hid2
    · injection heq with hh
      subst hh
      exact ⟨List.not_mem_nil _, by decide⟩
    · rcases List.mem_singleton.mp hid2 with heq2
      exact Expr.noConfusion heq2
  exact (C10_registry [] [assignU] [assignU] [] rfl).2 "v" (Expr.Name "Normal")
    [Expr.Name "u", Expr.Constant 1] [] hfresh rfl
